import Mathlib

/-!
Verification of the price-calculator pipeline (parser.py, excel_builder.py,
bot.py) against its natural-language specification.

Machine integers do not occur in the source (Python floats are modelled by
exact rationals: every literal appearing in the claims round-trips through
`str`/`Decimal` exactly); fallible code is modelled with `Except`.
-/

namespace Spec2Proof

/-! ## Errors raised by the Python source -/

/-- The exceptions the modelled Python code can raise:
`ValueError("Buy-in is required")`, `ValueError("Price Unit (KHR) is required")`
(both from `excel_builder.calculate_fields`), and the `TypeError` raised when
`list.sort` compares a `str` key with a `datetime.date` key
(`bot._build_index_by_sheet` / `bot.delete_command`). -/
inductive PyErr where
  | valueErrorBuyIn
  | valueErrorPriceUnit
  | typeError
  deriving DecidableEq, Repr

instance instDecEqExcept {ε α : Type} [DecidableEq ε] [DecidableEq α] :
    DecidableEq (Except ε α)
  | .error e, .error e' =>
    decidable_of_iff (e = e') (by simp)
  | .ok a, .ok b =>
    decidable_of_iff (a = b) (by simp)
  | .error _, .ok _ => isFalse (by simp)
  | .ok _, .error _ => isFalse (by simp)

/-! ## Decimal / float rounding primitives

`excel_builder.round2` and `excel_builder.round_weight` are written with
`decimal.Decimal`.  The relevant `Decimal` semantics, modelled exactly:

* `quantize(Decimal("1"), rounding=ROUND_FLOOR)` rounds toward `-∞`: `Int.floor`;
* `%` on `Decimal` is the *remainder* operation whose result carries the sign
  of the dividend (unlike Python `int.__mod__`);
* `ROUND_HALF_UP` rounds half away from zero;
* `to_integral_value()` uses the default context rounding `ROUND_HALF_EVEN`
  (round half to even). -/

/-- `Decimal.__mod__`: remainder with the sign of the dividend. -/
def decRem (a b : ℤ) : ℤ :=
  if 0 ≤ a then a % b else -((-a) % b)

/-- `d.quantize(Decimal("0.01"), rounding=ROUND_HALF_UP)`: round to two
decimals, halves away from zero. -/
def quantHalfUp2 (x : ℚ) : ℚ :=
  if 0 ≤ x then (⌊x * 100 + 1/2⌋ : ℚ) / 100 else -((⌊(-x) * 100 + 1/2⌋ : ℚ) / 100)

/-- `Decimal.to_integral_value()` under the default context: round to the
nearest integer, halves to the even neighbour. -/
def toIntegralHalfEven (x : ℚ) : ℤ :=
  let n : ℤ := ⌊x⌋
  if x - n < 1/2 then n
  else if x - n > 1/2 then n + 1
  else if n % 2 = 0 then n else n + 1

/-- Python `round()` on a float (banker's rounding) composed with `int(...)`,
as in `int(round(v))` inside `calculate_fields`. -/
def pyRoundInt (x : ℚ) : ℤ := toIntegralHalfEven x

/-- `excel_builder.round2`: look at the third decimal digit of
`Decimal(str(x))`; digit 0 → floor to 2 decimals; digits 6–9 →
`ROUND_HALF_UP` to 2 decimals; digits 1–5 → floor to 2 decimals.
The third digit is `int((d*1000).quantize(1, ROUND_FLOOR) % 10)` with the
`Decimal` remainder (sign of the dividend). -/
def round2 (x : ℚ) : ℚ :=
  let scaled : ℤ := ⌊x * 1000⌋
  let third : ℤ := decRem scaled 10
  if third = 0 then (⌊x * 100⌋ : ℚ) / 100
  else if 6 ≤ third then quantHalfUp2 x
  else (⌊x * 100⌋ : ℚ) / 100

/-- `excel_builder.round_weight`: `integer_part = d.to_integral_value()`
(half-even!), `fractional = d - integer_part`; if `fractional == 0` return the
value unchanged, else `first_digit = int((fractional*10).to_integral_value())`
and return `integer_part + 1` when `first_digit >= 6`, else `integer_part`. -/
def round_weight (x : ℚ) : ℚ :=
  let ip : ℤ := toIntegralHalfEven x
  let frac : ℚ := x - ip
  if frac = 0 then x
  else
    let first : ℤ := toIntegralHalfEven (frac * 10)
    if 6 ≤ first then (ip + 1 : ℤ) else (ip : ℚ)

/-! ## Spreadsheet arithmetic

Semantics of the worksheet functions appearing in the formula strings of
`build_excel_from_sheet_dict`: `ROUND` (half away from zero), `ROUNDUP`
(away from zero), `ROUNDDOWN` (toward zero), `MOD` (sign of the divisor). -/

/-- `ROUND(x, 2)`. -/
def excelRound2 (x : ℚ) : ℚ :=
  if 0 ≤ x then (⌊x * 100 + 1/2⌋ : ℚ) / 100 else -((⌊(-x) * 100 + 1/2⌋ : ℚ) / 100)

/-- `ROUND(x, 0)`. -/
def excelRound0 (x : ℚ) : ℚ :=
  if 0 ≤ x then (⌊x + 1/2⌋ : ℚ) else -((⌊(-x) + 1/2⌋ : ℚ))

/-- `ROUNDUP(x, 0)`. -/
def excelRoundUp0 (x : ℚ) : ℚ :=
  if 0 ≤ x then (⌈x⌉ : ℚ) else -((⌈(-x)⌉ : ℚ))

/-- `ROUNDDOWN(x, 0)`. -/
def excelRoundDown0 (x : ℚ) : ℚ :=
  if 0 ≤ x then (⌊x⌋ : ℚ) else -((⌊(-x)⌋ : ℚ))

/-- `MOD(a, b)`: result has the sign of the divisor. -/
def excelMod (a b : ℚ) : ℚ := a - b * ⌊a / b⌋

/-! ## Python string primitives

Modelled over `List Char` with structural recursion (Lean core's `String`
functions are modelled faithfully but re-implemented so they compute).
All inputs relevant to the claims are ASCII, where Python's `str.lower`,
`str.strip` and `str.split` coincide with these definitions. -/

/-- Python `str.lower` on one ASCII character. -/
def lowerChar (c : Char) : Char :=
  if 'A' ≤ c ∧ c ≤ 'Z' then Char.ofNat (c.toNat + 32) else c

/-- Python `str.lower`. -/
def lowerStr (s : String) : String := String.mk (s.data.map lowerChar)

/-- Python `str.strip` (drop leading and trailing whitespace). -/
def stripL (cs : List Char) : List Char :=
  ((cs.dropWhile (·.isWhitespace)).reverse.dropWhile (·.isWhitespace)).reverse

/-- Python `str.strip` on `String`. -/
def pyStrip (s : String) : String := String.mk (stripL s.data)

/-- One step of Python `str.split(sep)` for a non-empty `sep`;
the fuel argument only forces termination and is set `≥ length` by `splitOnL`. -/
def splitGo (sep : List Char) : ℕ → List Char → List Char → List (List Char)
  | 0, _, acc => [acc.reverse]
  | _ + 1, [], acc => [acc.reverse]
  | n + 1, c :: cs, acc =>
    if sep.isPrefixOf (c :: cs) then
      acc.reverse :: splitGo sep n ((c :: cs).drop sep.length) []
    else
      splitGo sep n cs (c :: acc)

/-- Python `str.split(sep)` for a non-empty separator: consecutive separators
yield empty fields, a trailing separator yields a trailing empty field. -/
def splitOnL (sep : List Char) (cs : List Char) : List (List Char) :=
  splitGo sep (cs.length + 1) cs []

/-- Python `sub in s` (substring containment). -/
def containsSub (sub : List Char) : List Char → Bool
  | [] => sub.isPrefixOf []
  | c :: cs => sub.isPrefixOf (c :: cs) || containsSub sub cs

/-! ## Normalizer: `parser.num_or_none` -/

/-- Characters kept by `re.sub(r"[^0-9.\-]", "", v)`. -/
def keptChar (c : Char) : Bool := c.isDigit || c = '.' || c = '-'

/-- The cleaning phase of `num_or_none`: `v.strip()`, then
`v.replace(",", ".")`, then `re.sub(r"[^0-9.\-]", "", v)`. -/
def cleanNumeric (s : String) : List Char :=
  ((stripL s.data).map (fun c => if c = ',' then '.' else c)).filter keptChar

/-- Numeric value of a digit list read in base 10. -/
def digitsVal (ds : List Char) : ℕ :=
  ds.foldl (fun a c => a * 10 + (c.toNat - 48)) 0

/-- Python `float(v)` on a string made only of digits, dots and minus signs:
accepts an optional leading `-` followed by digits with at most one dot and
at least one digit; everything else raises `ValueError` (`none` here). -/
def pyFloat (cs : List Char) : Option ℚ :=
  let unsigned : List Char → Option ℚ := fun ds =>
    if ds.all (fun c => c.isDigit || c = '.') && ds.countP (· = '.') ≤ 1
        && ds.any (·.isDigit) then
      let ip := ds.takeWhile (· ≠ '.')
      let fp := (ds.dropWhile (· ≠ '.')).drop 1
      some ((digitsVal ip : ℚ) + (digitsVal fp : ℚ) / (10 : ℚ) ^ fp.length)
    else none
  match cs with
  | '-' :: rest => (unsigned rest).map Neg.neg
  | rest => unsigned rest

/-- `parser.num_or_none`: `None`/empty input → `None`; strip, replace commas
by dots, drop every character that is not a digit, dot or minus; a degenerate
result (`""`, `"-"`, `"."`, `"-."`, `".-"`) is `None`; otherwise `float(v)`
with `ValueError` mapped to `None`. -/
def num_or_none (value : Option String) : Option ℚ :=
  match value with
  | none => none
  | some s =>
    if s = "" then none
    else
      let v := cleanNumeric s
      if v = [] ∨ v = ['-'] ∨ v = ['.'] ∨ v = ['-', '.'] ∨ v = ['.', '-'] then
        none
      else
        pyFloat v

/-! ## Field Extractor: `parser._extract_value`

`_extract_value(text, key_pattern)` matches each line against
`^\s*(key_pattern)\s*:\s*(.*)$` case-insensitively and returns the trimmed
captured value of the first matching line (`None` when the match's value is
empty).  The key patterns occurring in `parse_message` are alternations of
literals, some with interior `\s*`; a pattern is modelled as an ordered list
of alternatives, each alternative a sequence of atoms. -/

/-- One atom of a key pattern: a literal (matched case-insensitively) or an
interior `\s*`. -/
inductive PatAtom where
  | lit (s : String)
  | ws
  deriving DecidableEq, Repr

/-- First `some` produced by `f` along the list, Python's first-match scan. -/
def firstSome {α β : Type} (f : α → Option β) : List α → Option β
  | [] => none
  | x :: xs =>
    match f x with
    | some y => some y
    | none => firstSome f xs

/-- Strip a literal prefix case-insensitively, returning the rest. -/
def stripPrefixCI : List Char → List Char → Option (List Char)
  | [], cs => some cs
  | _ :: _, [] => none
  | p :: ps, c :: cs =>
    if lowerChar p = lowerChar c then stripPrefixCI ps cs else none

/-- Match a sequence of pattern atoms at the front of `cs`; `\s*` is greedy,
which is equivalent to backtracking here because every following literal
starts with a non-whitespace character. -/
def matchAtoms : List PatAtom → List Char → Option (List Char)
  | [], cs => some cs
  | .lit s :: ps, cs =>
    match stripPrefixCI s.data cs with
    | none => none
    | some rest => matchAtoms ps rest
  | .ws :: ps, cs => matchAtoms ps (cs.dropWhile (·.isWhitespace))

/-- Try to match one line against `^\s*(alts)\s*:\s*(.*)$`.
`none`: the line does not match; `some v`: it matches and the extracted value
(trimmed, empty mapped to `None`) is `v`. -/
def matchLine (alts : List (List PatAtom)) (line : List Char) :
    Option (Option String) :=
  let cs := line.dropWhile (·.isWhitespace)
  firstSome
    (fun alt =>
      match matchAtoms alt cs with
      | none => none
      | some rest =>
        match rest.dropWhile (·.isWhitespace) with
        | ':' :: v =>
          let value := stripL v
          some (if value = [] then none else some (String.mk value))
        | _ => none)
    alts

/-- `parser._extract_value`: scan the lines, return the first matching line's
value (which is `None` when that line's captured value is empty). -/
def extract_value (text : String) (alts : List (List PatAtom)) : Option String :=
  match firstSome (fun line => matchLine alts line) (splitOnL ['\x0a'] text.data) with
  | none => none
  | some v => v

/-- A single-literal key pattern. -/
def patK (s : String) : List (List PatAtom) := [[.lit s]]

/-! ## `parser.parse_message` -/

/-- Python `int(...)` on a float: truncation toward zero. -/
def truncInt (x : ℚ) : ℤ := if 0 ≤ x then ⌊x⌋ else -⌊-x⌋

/-- Modelled from the spec: the external day-first date parser
(`dateutil.parser.parse(raw, dayfirst=True).date()`, whose source is not part
of this repository).  "Date coercion: parse using a day-first locale
convention; unparsable or missing dates store null".  Dates are encoded as
the integer `y*10000 + m*100 + d`, which orders them chronologically; the
model accepts the `dd.mm.yyyy` form used throughout the repository's examples
and yields `none` otherwise. -/
def dateutil_parse (raw : String) : Option ℤ :=
  match (splitOnL ['.'] raw.data).map (fun p => (p ≠ [] && p.all (·.isDigit), digitsVal p)) with
  | [(true, d), (true, m), (true, y)] =>
    if 1 ≤ d ∧ d ≤ 31 ∧ 1 ≤ m ∧ m ≤ 12 then some (y * 10000 + m * 100 + d) else none
  | _ => none

/-- The dictionary built by `parser.parse_message` (its keys as fields;
numeric values are exact rationals, dates are encoded integers). -/
structure Parsed where
  date_raw : Option String := none
  date : Option ℤ := none
  address : Option String := none
  outlet_type : Option String := none
  category : Option String := none
  sub_category : Option String := none
  brand : Option String := none
  packaging : Option String := none
  size_raw : Option String := none
  packs_raw : Option String := none
  weight_raw : Option String := none
  size_ml : Option ℚ := none
  packs : Option ℤ := none
  weight_ctn_l : Option ℚ := none
  buy_in : Option ℚ := none
  scheme_base_raw : Option String := none
  scheme_base : Option ℚ := none
  foc_raw : Option String := none
  foc : Option ℚ := none
  discount_pct : Option ℚ := none
  discount_value : Option ℚ := none
  direct_disc_pct : Option ℚ := none
  direct_disc_value : Option ℚ := none
  mark_up : Option ℚ := none
  sell_out_usd : Option ℚ := none
  price_unit_khr : Option ℚ := none
  exchange_rate : Option ℚ := none
  deriving DecidableEq, Repr, Inhabited

/-- `parser.parse_message`, field for field.  The key patterns mirror the
regular expressions of the source, alternatives in source order. -/
def parse_message (text : String) : Parsed :=
  let date_raw := extract_value text (patK "Date")
  let date :=
    match date_raw with
    | some raw => dateutil_parse raw
    | none => none
  let size_raw := extract_value text (patK "Size")
  let packs_raw := extract_value text (patK "Packs")
  let weight_raw := extract_value text (patK "Weight per Ctn")
  let scheme_base_raw :=
    extract_value text [[.lit "Scheme(base)"], [.lit "Scheme(Base)"], [.lit "Scheme"]]
  let foc_raw := extract_value text (patK "FOC")
  let packs_val := num_or_none packs_raw
  { date_raw := date_raw
    date := date
    address := extract_value text [[.lit "Addresss"], [.lit "Address"]]
    outlet_type := extract_value text (patK "Outlet-Type")
    category := extract_value text (patK "Category")
    sub_category := extract_value text (patK "Sub-Category")
    brand := extract_value text (patK "Brand")
    packaging := extract_value text (patK "Packaging")
    size_raw := size_raw
    packs_raw := packs_raw
    weight_raw := weight_raw
    size_ml := num_or_none size_raw
    packs := (packs_val).map truncInt
    weight_ctn_l := num_or_none weight_raw
    buy_in := num_or_none (extract_value text (patK "Buy-in"))
    scheme_base_raw := scheme_base_raw
    scheme_base := num_or_none scheme_base_raw
    foc_raw := foc_raw
    foc := num_or_none foc_raw
    discount_pct := num_or_none (extract_value text (patK "Discount(%)"))
    discount_value := num_or_none (extract_value text (patK "Discount($)"))
    direct_disc_pct := num_or_none (extract_value text (patK "Direct Disc.(%)"))
    direct_disc_value := num_or_none (extract_value text (patK "Direct Disc($)"))
    mark_up :=
      num_or_none (extract_value text
        [[.lit "Mark", .ws, .lit "-", .ws, .lit "up"], [.lit "Mark", .ws, .lit "up"]])
    sell_out_usd := num_or_none (extract_value text (patK "Sell Out ($)"))
    price_unit_khr := num_or_none (extract_value text (patK "Price Unit"))
    exchange_rate := none }

/-! ## Classifier: `excel_builder.choose_sheet_name` -/

/-- Modelled from the spec: `config.EXCHANGE_RATE_DEFAULT` (the `config`
module is not part of this repository).  Its concrete value is irrelevant to
every claim; `4100` follows the example rate shown by the bot's `/settings`
command. -/
def EXCHANGE_RATE_DEFAULT : ℚ := 4100

/-- The sheet vocabulary (`db.SHEET_NAMES`, also the keys of
`excel_builder.SHEET_COLORS`). -/
def SHEET_NAMES : List String :=
  ["Oil", "Powder Detergent", "Liquid Detergent", "Milk", "Dishwash",
   "Fabric Softener", "Eco Dishwash", "Toilet", "Data"]

/-- `(data.get("category") or "").strip().lower()`. -/
def normField (v : Option String) : String := pyStrip (lowerStr (v.getD ""))

/-- `excel_builder.choose_sheet_name`, rule for rule and set for set
(the keyword sets keep the source's redundant capitalised members, which are
unreachable after lowercasing). -/
def choose_sheet_name (category sub_category : Option String) : String :=
  let cat := normField category
  let sub := normField sub_category
  if cat ∈ ["cooking oil", "oil", "palm oil", "vegetable oil", "coconut oil",
      "sunflower oil"] then "Oil"
  else if cat ∈ ["detergent", "powder detergent", "washing powder"] ∧
      sub ∈ ["powder", "powdered", "Powder", ""] then "Powder Detergent"
  else if cat ∈ ["detergent", "liquid detergent", "laundry liquid"] ∧
      sub ∈ ["liquid", "Liquid", ""] then "Liquid Detergent"
  else if cat ∈ ["milk", "dairy milk", "fresh milk", "evaporated milk",
      "condensed milk", "Milk"] then "Milk"
  else if cat ∈ ["dishwash", "dish wash", "dishwashing liquid", "Dishwash",
      "dishwashing"] then "Dishwash"
  else if cat ∈ ["fabric softener", "Fabric softener", "softener",
      "Fabric Softener", "fabric softner"] then "Fabric Softener"
  else if cat ∈ ["eco dishwash", "eco dishwashing", "eco-dishwash",
      "Eco dishwash", "Eco Dishwash"] then "Eco Dishwash"
  else if cat ∈ ["toilet", "toilet cleaner", "toilet bowl cleaner",
      "wc cleaner", "toilet liquid", "Toilet"] then "Toilet"
  else "Data"

/-! ## Calculation normalization: `excel_builder.calculate_fields` -/

/-- The result dictionary of `calculate_fields`: `dict(data)` carried over,
with the keys overwritten by `result.update(...)` lifted into typed fields.
(`size_ml` is always set to `int(round(size_val))`: `size_val` is never
`None` because of the preceding `or 0`.) -/
structure Calc where
  toParsed : Parsed
  buy_in : ℚ
  direct_disc_pct : ℚ
  mark_up : ℚ
  exchange_rate : ℚ
  price_unit_khr : ℤ
  size_ml : ℤ
  deriving DecidableEq, Repr, Inhabited

/-- `excel_builder.calculate_fields`.  `_to_float_money` is the identity on
the already-numeric parser output.  Raises (`Except.error`) when `buy_in` or
`price_unit_khr` is `None`; `mark_up` and `size_ml` fall back to `0` through
Python's `or 0`. -/
def calculate_fields (data : Parsed) : Except PyErr Calc :=
  match data.buy_in with
  | none => .error .valueErrorBuyIn
  | some buyIn =>
    match data.price_unit_khr with
    | none => .error .valueErrorPriceUnit
    | some priceUnit =>
      let markUp : ℚ := data.mark_up.getD 0
      let sizeVal : ℚ := data.size_ml.getD 0
      let directDiscDecimal : ℚ :=
        match data.direct_disc_pct with
        | none => 0
        | some v => round2 v / 100
      .ok
        { toParsed := data
          buy_in := round2 buyIn
          direct_disc_pct := directDiscDecimal
          mark_up := round2 markUp
          exchange_rate := EXCHANGE_RATE_DEFAULT
          price_unit_khr := pyRoundInt priceUnit
          size_ml := pyRoundInt sizeVal }

/-! ## Report cells: `excel_builder.build_excel_from_sheet_dict`

For each data row the sheet holds, per column: literals for `Date`, `Size`
(H), `Packs` (I), `Buy-in` (K), `Scheme(base)` (L), `FOC` (M),
`Direct Disc.(%)` (P), `Mark - up` (T), `Exchange Rate` (V),
`Price Unit (KHR)` (X); and same-row formulas for the remaining numeric
columns.  `rowCells` gives the value each formula evaluates to, wired column
by column exactly as the formula strings reference each other (an empty cell
behaves as `0` in spreadsheet arithmetic, hence the `.getD 0` at call
sites). -/

/-- The values of one row's formula cells, in the sheet's own column wiring.
`weightCtn` is the sized branch (`size_is_ml`/`size_is_gram`), whose formula
divides by 1000. -/
structure RowCells where
  discountPct : ℚ    -- N: =IF((L+M)=0,0,M/(L+M))
  discountUsd : ℚ    -- O: =ROUND(N*K,2)
  directDiscUsd : ℚ  -- Q: =ROUND(P*K,2)
  netBuyIn : ℚ       -- R: =ROUND(K-(O+Q),2)
  price100 : ℚ       -- S: =IF((H*I)=0,0,ROUND(R/((H*I)/100),2))
  weightCtn : ℚ      -- J: =IF(H=0,0,IF(MOD(ROUND((H*I)/1000*10,0),10)>=6,ROUNDUP((H*I)/1000,0),ROUNDDOWN((H*I)/1000,0)))
  sellOutUsd : ℚ     -- U: =ROUND(R+T,2)
  sellOutKhr : ℚ     -- W: =ROUND(U*V,0)
  marginUnitKhr : ℚ  -- Y: =ROUND(X-(W/I),0)
  priceCtnKhr : ℚ    -- Z: =ROUND(X*I,0)
  marginCtnKhr : ℚ   -- AA: =ROUND(Z-W,0)
  deriving DecidableEq, Repr

/-- Evaluate the formula cells of one row from the literal cells
`H` (Size), `I` (Packs), `K` (Buy-in), `L` (Scheme(base)), `M` (FOC),
`P` (Direct Disc.(%)), `T` (Mark - up), `V` (Exchange Rate),
`X` (Price Unit (KHR)). -/
def rowCells (H I K L M P T V X : ℚ) : RowCells :=
  let N := if L + M = 0 then 0 else M / (L + M)
  let O := excelRound2 (N * K)
  let Q := excelRound2 (P * K)
  let R := excelRound2 (K - (O + Q))
  let S := if H * I = 0 then 0 else excelRound2 (R / ((H * I) / 100))
  let J :=
    if H = 0 then 0
    else if 6 ≤ excelMod (excelRound0 ((H * I) / 1000 * 10)) 10
      then excelRoundUp0 ((H * I) / 1000)
      else excelRoundDown0 ((H * I) / 1000)
  let U := excelRound2 (R + T)
  let W := excelRound0 (U * V)
  let Y := excelRound0 (X - W / I)
  let Z := excelRound0 (X * I)
  let AA := excelRound0 (Z - W)
  ⟨N, O, Q, R, S, J, U, W, Y, Z, AA⟩

/-- The literal cells a `Calc` row writes into the sheet, feeding `rowCells`:
`H` is the Size value, `I` the Packs value, `K` the rounded Buy-in, `L` and
`M` the raw Scheme(base)/FOC, `P` the direct-discount fraction, `T` the
rounded Mark-up, `V` the exchange rate and `X` the Price Unit. -/
def rowCellsOf (c : Calc) : RowCells :=
  rowCells (c.size_ml : ℚ) ((c.toParsed.packs.map (fun z => (z : ℚ))).getD 0)
    c.buy_in (c.toParsed.scheme_base.getD 0) (c.toParsed.foc.getD 0)
    c.direct_disc_pct c.mark_up c.exchange_rate (c.price_unit_khr : ℚ)

/-! ## The Calculation Engine of spec §4.4 (the claims' reference model)

`specRow` renders the §4.4 formula chain verbatim, with the monetary rounding
rule `round2` applied to each monetary result and `round_weight` to the
carton weight, exactly as claim C2 reads the spec.  `specRowExcel` is the
amended reference: identical chain, but rounding with the spreadsheet's
half-away-from-zero `ROUND` (2 decimals for USD amounts, 0 for local-currency
amounts, the weight cell's MOD-digit rule for the carton weight). -/

structure SpecRow where
  discount_pct : ℚ
  discount_value : ℚ
  direct_disc_value : ℚ
  net_buy_in : ℚ
  price_per_100 : ℚ
  weight : ℚ
  sell_out_usd : ℚ
  sell_out_local : ℚ
  margin_unit : ℚ
  price_ctn : ℚ
  margin_ctn : ℚ
  deriving DecidableEq, Repr

/-- `round_weight` as the spec's words describe it (§4.4, claim C4): look at
the leading digit of the fractional part; 0 → unchanged, 6–9 → next integer
up, 1–5 → truncate. -/
def spec_round_weight (x : ℚ) : ℚ :=
  let d : ℤ := ⌊(x - ⌊x⌋) * 10⌋
  if d = 0 then x else if 6 ≤ d then (⌊x⌋ + 1 : ℤ) else (⌊x⌋ : ℚ)

/-- Spec §4.4 with the custom rounding semantics (`round2`,
`spec_round_weight`), as claim C2 states it.  `dpct` is the direct-discount
percentage (0–100 scale as in the spec). -/
def specRow (buyIn scheme foc dpct markUp rate unitPrice size packs : ℚ) : SpecRow :=
  let pct := if scheme + foc = 0 then 0 else 100 * foc / (scheme + foc)
  let dval := round2 (buyIn * pct / 100)
  let ddval := round2 (buyIn * dpct / 100)
  let net := round2 (buyIn - (dval + ddval))
  let p100 := if size * packs = 0 then 0 else round2 (net / ((size * packs) / 100))
  let wt := spec_round_weight ((size * packs) / 1000)
  let so := round2 (net + markUp)
  let sol := so * rate
  let mu := unitPrice - sol / packs
  let pc := unitPrice * packs
  let mc := pc - sol
  ⟨pct, dval, ddval, net, p100, wt, so, sol, mu, pc, mc⟩

/-- The amended reference engine: spec §4.4's dependency chain with the
spreadsheet's rounding semantics — `ROUND(…,2)` on USD amounts,
`ROUND(…,0)` on KHR amounts, and the weight formula's digit rule on the
carton weight (`0` when the size is `0`). -/
def specRowExcel (buyIn scheme foc dpct markUp rate unitPrice size packs : ℚ) : SpecRow :=
  let pct := if scheme + foc = 0 then 0 else 100 * foc / (scheme + foc)
  let dval := excelRound2 (buyIn * pct / 100)
  let ddval := excelRound2 (buyIn * dpct / 100)
  let net := excelRound2 (buyIn - (dval + ddval))
  let p100 := if size * packs = 0 then 0 else excelRound2 (net / ((size * packs) / 100))
  let wt :=
    if size = 0 then 0
    else if 6 ≤ excelMod (excelRound0 ((size * packs) / 1000 * 10)) 10
      then excelRoundUp0 ((size * packs) / 1000)
      else excelRoundDown0 ((size * packs) / 1000)
  let so := excelRound2 (net + markUp)
  let sol := excelRound0 (so * rate)
  let mu := excelRound0 (unitPrice - sol / packs)
  let pc := excelRound0 (unitPrice * packs)
  let mc := excelRound0 (pc - sol)
  ⟨pct / 100, dval, ddval, net, p100, wt, so, sol, mu, pc, mc⟩

/-! ## Registry and Index Builder (`bot.py`)

`ALL_PRODUCTS` is the registry: an insertion-ordered list of `Parsed`.
Python loops that may raise are modelled with a structurally recursive
`mapME` into `Except` (the loop stops at the first raised exception, leaving
the overall operation failed). -/

/-- `bot.normalize_sheet`: lowercase + strip. -/
def normalize_sheet (name : String) : String := pyStrip (lowerStr name)

/-- A Python `for`-loop collecting `f x` over a list, propagating the first
raised exception. -/
def mapME {α β : Type} (f : α → Except PyErr β) : List α → Except PyErr (List β)
  | [] => .ok []
  | x :: xs =>
    match f x with
    | .error e => .error e
    | .ok y =>
      match mapME f xs with
      | .error e => .error e
      | .ok ys => .ok (y :: ys)

/-- The sheet of a calculated product (`choose_sheet_name(calc)`). -/
def sheetOf (c : Calc) : String :=
  choose_sheet_name c.toParsed.category c.toParsed.sub_category

/-- `bot._rebuild_sheet_rows`, at the granularity the claims observe: the
calculated row and its sheet for every registry member in order (the
`setdefault`/`append` grouping into `SHEET_ROWS` preserves exactly these
pairs).  Raises whatever `calculate_fields` raises on the first bad
product. -/
def rebuild_sheet_rows (reg : List Parsed) : Except PyErr (List (String × Calc)) :=
  mapME (fun p => (calculate_fields p).map (fun c => (sheetOf c, c))) reg

/-- `bot.handle_text`'s data path: split the message on `"---"`, keep the
parts containing `"Date:"`; if none, do nothing; otherwise parse and append
every block to the registry and only then rebuild the sheet rows (which is
where `calculate_fields` can raise).  The first component is the registry
after the call — mutated even when the rebuild raises, exactly as the
source appends before validating. -/
def handle_text (reg : List Parsed) (text : String) :
    List Parsed × Except PyErr (Option (List (String × Calc))) :=
  let blocks := (splitOnL ['-', '-', '-'] text.data).filter
    (fun b => containsSub "Date:".data b)
  if blocks.isEmpty then (reg, .ok none)
  else
    let reg' := reg ++ blocks.map (fun b => parse_message (String.mk b))
    match rebuild_sheet_rows reg' with
    | .error e => (reg', .error e)
    | .ok rows => (reg', .ok (some rows))

/-! ### The per-sheet date sort

`by_sheet[sheet].sort(key=lambda t: t[1].get("date") or "")` sorts each
sheet's `(global_idx, calc)` pairs by a key that is the empty string when the
date is `None` and a `datetime.date` otherwise.  Comparing a `str` with a
`date` raises `TypeError`; a stable sort is modelled by insertion sort, which
raises on a mixed sheet exactly when CPython's sort does (the first element
whose key type differs from its neighbours' is compared against one of
them). -/

/-- A sort key: Python `""` (for `None` dates) or a date. -/
inductive SKey where
  | str (s : String)
  | date (d : ℤ)
  deriving DecidableEq, Repr

/-- Python `<` on sort keys; comparing a string with a date raises
`TypeError`. -/
def skeyLt : SKey → SKey → Except PyErr Bool
  | .str a, .str b => .ok (decide (a < b))
  | .date a, .date b => .ok (decide (a < b))
  | _, _ => .error .typeError

/-- The sort key of one `(global_idx, calc)` pair: `calc.get("date") or ""`. -/
def skeyOf (it : ℕ × Calc) : SKey :=
  match it.2.toParsed.date with
  | none => .str ""
  | some d => .date d

/-- Insert into an already sorted list, before the first strictly greater
element (keeping insertion order among equal keys). -/
def insertE (x : ℕ × Calc) : List (ℕ × Calc) → Except PyErr (List (ℕ × Calc))
  | [] => .ok [x]
  | y :: ys =>
    match skeyLt (skeyOf y) (skeyOf x) with
    | .error e => .error e
    | .ok true =>
      match insertE x ys with
      | .error e => .error e
      | .ok zs => .ok (y :: zs)
    | .ok false => .ok (x :: y :: ys)

/-- Stable sort by date key (insertion sort), raising `TypeError` exactly on
sheets mixing `None` and real dates. -/
def sortE : List (ℕ × Calc) → Except PyErr (List (ℕ × Calc))
  | [] => .ok []
  | x :: xs =>
    match sortE xs with
    | .error e => .error e
    | .ok s => insertE x s

/-- The items of `_build_index_by_sheet` / `delete_command`:
`(global_idx, calculate_fields(parsed))` in registry order. -/
def itemsOf (cs : List Calc) : List (ℕ × Calc) :=
  (List.range cs.length).zip cs

/-- The normalized sheet key of one item. -/
def itemKey (it : ℕ × Calc) : String := normalize_sheet (sheetOf it.2)

/-- The `defaultdict(list)` bucket of one sheet key: all items classified to
it, in registry order. -/
def bucket (cs : List Calc) (key : String) : List (ℕ × Calc) :=
  (itemsOf cs).filter (fun it => itemKey it = key)

/-- The keys of `by_sheet` in first-insertion order (Python dict order). -/
def sheetKeys (cs : List Calc) : List String :=
  (itemsOf cs).foldl
    (fun ks it => if itemKey it ∈ ks then ks else ks ++ [itemKey it]) []

/-- First-match association lookup (`dict.__getitem__` on the modelled
association list). -/
def lookupA {β : Type} : List (String × β) → String → Option β
  | [], _ => none
  | (k, v) :: rest, key => if k = key then some v else lookupA rest key

/-- `by_sheet` after the per-sheet date sort: each bucket sorted, raising
`TypeError` on the first mixed bucket. -/
def sortedSheets (cs : List Calc) : Except PyErr (List (String × List (ℕ × Calc))) :=
  mapME (fun k => (sortE (bucket cs k)).map (fun l => (k, l))) (sheetKeys cs)

/-- `bot._build_index_by_sheet`: for every sheet, the `(sheet_id,
global_index)` pairs with `sheet_id` densely `1..N` after the date sort. -/
def build_index (reg : List Parsed) :
    Except PyErr (List (String × List (ℕ × ℕ))) :=
  match mapME calculate_fields reg with
  | .error e => .error e
  | .ok cs =>
    match sortedSheets cs with
    | .error e => .error e
    | .ok gs =>
      .ok (gs.map (fun g =>
        (g.1, (List.range g.2.length).zip g.2 |>.map (fun p => (p.1 + 1, p.2.1)))))

/-- Outcome of `/delete <Sheet> <Id>` (after successful argument parsing). -/
inductive DeleteOutcome where
  | notFoundSheet
  | notFoundId
  | deleted (global_idx : ℕ)
  deriving DecidableEq, Repr

/-- `bot.delete_command`'s registry logic: rebuild the per-sheet items and
sort them (both can raise), address `(normalized sheet, ordinal)`; unknown
sheet or ordinal outside `1..N` answer "not found" without mutation;
otherwise `ALL_PRODUCTS.pop(global_idx)` and rebuild the sheet rows.  The
first component is the registry after the call. -/
def delete_command (reg : List Parsed) (sheet_name_input : String) (sheet_row_id : ℤ) :
    List Parsed × Except PyErr DeleteOutcome :=
  match mapME calculate_fields reg with
  | .error e => (reg, .error e)
  | .ok cs =>
    match sortedSheets cs with
    | .error e => (reg, .error e)
    | .ok gs =>
      let sheet_key := normalize_sheet sheet_name_input
      match lookupA gs sheet_key with
      | none => (reg, .ok .notFoundSheet)
      | some rows =>
        if sheet_row_id < 1 ∨ (rows.length : ℤ) < sheet_row_id then
          (reg, .ok .notFoundId)
        else
          let g := (rows.getD (sheet_row_id - 1).toNat (0, default)).1
          let reg' := reg.eraseIdx g
          match rebuild_sheet_rows reg' with
          | .error e => (reg', .error e)
          | .ok _ => (reg', .ok (.deleted g))

/-! ## Auxiliary predicates and concrete sample inputs

Key-type and date-uniformity predicates for the sort, the observable
Sell Out cell of one product, and the concrete products and their
calculated forms used by the claims' concrete evaluations. -/

/-- Whether a sort key is the string kind (an absent date). -/
def skeyIsStr : SKey → Bool
  | .str _ => true
  | .date _ => false

/-- Pairwise key-type uniformity of a bucket. -/
def KeysUniform (l : List (ℕ × Calc)) : Prop :=
  ∀ a ∈ l, ∀ b ∈ l, skeyIsStr (skeyOf a) = skeyIsStr (skeyOf b)

/-- Within every sheet (after normalization), the products' dates are
uniformly present or uniformly absent. -/
def DateUniform (cs : List Calc) : Prop :=
  ∀ c1 ∈ cs, ∀ c2 ∈ cs,
    normalize_sheet (sheetOf c1) = normalize_sheet (sheetOf c2) →
    c1.toParsed.date.isNone = c2.toParsed.date.isNone

/-- The `Sell Out ($)` cell the report emits for one parsed product:
`_row_from_data` writes `None` into the row's "Sell Out ($)" entry and
`build_excel_from_sheet_dict` always fills the cell with the formula
`=ROUND(R+T,2)`; the parsed explicit value is never consulted. -/
def sellOutCellOf (p : Parsed) : Except PyErr ℚ :=
  (calculate_fields p).map (fun c => (rowCellsOf c).sellOutUsd)

def c10_input : Parsed := { buy_in := some 0, price_unit_khr := some 0 }

def c10_output : Calc :=
  { toParsed := c10_input, buy_in := 0, direct_disc_pct := 0, mark_up := 0,
    exchange_rate := EXCHANGE_RATE_DEFAULT, price_unit_khr := 0, size_ml := 0 }

def c8_input : Parsed :=
  { date := some 20251124, category := some "Oil", buy_in := some (45/2),
    scheme_base := some 4, foc := some 0, mark_up := some (1/2),
    price_unit_khr := some 9000, size_ml := some 1000, packs := some 12,
    sell_out_usd := some 99 }

def c8_output : Calc :=
  { toParsed := c8_input, buy_in := 45/2, direct_disc_pct := 0, mark_up := 1/2,
    exchange_rate := EXCHANGE_RATE_DEFAULT, price_unit_khr := 9000, size_ml := 1000 }

/-- A batch message whose single block has a Buy-in but no Price Unit. -/
def c1_text : String := "Date: 24.11.2025\x0aCategory: Oil\x0aBuy-in: 22.50$\x0aMark - up: 0.50$"

/-- A well-formed product without a date (sheet "Data"). -/
def c5_undated : Parsed := { buy_in := some 0, price_unit_khr := some 0 }

/-- A well-formed product with a date (same sheet "Data"). -/
def c5_dated : Parsed :=
  { date := some 20250101, buy_in := some 0, price_unit_khr := some 0 }

def c5_calc_undated : Calc :=
  { toParsed := c5_undated, buy_in := 0, direct_disc_pct := 0, mark_up := 0,
    exchange_rate := EXCHANGE_RATE_DEFAULT, price_unit_khr := 0, size_ml := 0 }

def c5_calc_dated : Calc :=
  { toParsed := c5_dated, buy_in := 0, direct_disc_pct := 0, mark_up := 0,
    exchange_rate := EXCHANGE_RATE_DEFAULT, price_unit_khr := 0, size_ml := 0 }

/-- Two dated, well-formed products, both classified to sheet "Data". -/
def c6_p1 : Parsed := { date := some 20250101, buy_in := some 0, price_unit_khr := some 0 }

def c6_p2 : Parsed := { date := some 20250102, buy_in := some 0, price_unit_khr := some 0 }

def c6_c1 : Calc :=
  { toParsed := c6_p1, buy_in := 0, direct_disc_pct := 0, mark_up := 0,
    exchange_rate := EXCHANGE_RATE_DEFAULT, price_unit_khr := 0, size_ml := 0 }

def c6_c2 : Calc :=
  { toParsed := c6_p2, buy_in := 0, direct_disc_pct := 0, mark_up := 0,
    exchange_rate := EXCHANGE_RATE_DEFAULT, price_unit_khr := 0, size_ml := 0 }


/-! ## Helper lemmas about the cleaning phase of `num_or_none` -/

/-- Whitespace characters are discarded by the cleaning filter and are not
commas. -/
lemma ws_not_kept {c : Char} (h : c.isWhitespace) :
    keptChar (if c = ',' then '.' else c) = false := by
  simp only [Char.isWhitespace, Bool.or_eq_true, decide_eq_true_iff] at h
  rcases h with ((h | h) | h) | h <;> subst h <;> decide

/-- Dropping leading whitespace does not change the cleaned character list. -/
lemma clean_dropWhile (cs : List Char) :
    ((cs.dropWhile (·.isWhitespace)).map (fun c => if c = ',' then '.' else c)).filter keptChar
      = (cs.map (fun c => if c = ',' then '.' else c)).filter keptChar := by
  induction cs with
  | nil => rfl
  | cons c cs ih =>
    by_cases h : c.isWhitespace
    · simpa [List.dropWhile_cons, h, List.filter_cons, ws_not_kept h] using ih
    · simp [List.dropWhile_cons, h]

/-- `v.strip()` does not change the cleaned character list: the stripped
characters are whitespace, which the filter discards anyway. -/
lemma cleanNumeric_eq_noStrip (s : String) :
    cleanNumeric s = (s.data.map (fun c => if c = ',' then '.' else c)).filter keptChar := by
  unfold cleanNumeric stripL
  rw [List.map_reverse, List.filter_reverse, clean_dropWhile, ← List.filter_reverse,
    ← List.map_reverse, List.reverse_reverse, clean_dropWhile]

/-- Appending text made of discarded characters (currency marks, letters,
spaces — anything neither kept nor a comma) does not change the cleaning
result. -/
lemma cleanNumeric_append_junk (s t : String)
    (ht : ∀ c ∈ t.data, keptChar c = false ∧ c ≠ ',') :
    cleanNumeric (s ++ t) = cleanNumeric s := by
  rw [cleanNumeric_eq_noStrip, cleanNumeric_eq_noStrip, String.data_append,
    List.map_append, List.filter_append]
  have hnil : (t.data.map (fun c => if c = ',' then '.' else c)).filter keptChar = [] := by
    rw [List.filter_eq_nil_iff]
    intro c hc
    rcases List.mem_map.mp hc with ⟨a, ha, rfl⟩
    rw [if_neg (ht a ha).2]
    simp [(ht a ha).1]
  rw [hnil, List.append_nil]

/-- `num_or_none` ignores appended non-numeric text. -/
lemma num_or_none_append_junk (s t : String)
    (ht : ∀ c ∈ t.data, keptChar c = false ∧ c ≠ ',') :
    num_or_none (some (s ++ t)) = num_or_none (some s) := by
  by_cases hs : s = ""
  · subst hs
    by_cases htn : t = ""
    · subst htn; rfl
    · have hclean : cleanNumeric ("" ++ t) = cleanNumeric "" := cleanNumeric_append_junk _ _ ht
      simp only [num_or_none]
      rw [hclean]
      simp [cleanNumeric, stripL]
  · have hne : ¬ (s ++ t) = "" := by
      intro h
      apply hs
      have hd := congrArg String.data h
      rw [String.data_append] at hd
      rcases List.append_eq_nil.mp hd with ⟨h1, _⟩
      exact String.ext h1
    simp only [num_or_none]
    rw [if_neg hne, if_neg hs, cleanNumeric_append_junk s t ht]

/-! ## Claim C3 — `round2`'s third-decimal-digit rule -/

/-- C3, counterexample.  The claim states that for negative values the
1–5 digit case still truncates toward zero, i.e. `round2(-1.235) = -1.23`;
but the code's `Decimal` remainder is negative there, so the value is
floored toward `-∞`: `round2(-1.235) = -1.24`. -/
theorem C3_counterexample :
    round2 (-1235/1000) = -124/100 ∧ ((-124 : ℚ)/100) ≠ -123/100 := by
  constructor
  · norm_num [round2, decRem, quantHalfUp2]
  · norm_num

/-- C3, amended.  For non-negative `x` the claim's rule holds: third decimal
digit 0–5 truncates to two decimals and 6–9 rounds away from zero.  For
negative `x` the scaled remainder is never in `1..9` (the `Decimal`
remainder carries the dividend's sign), so `round2` always floors toward
`-∞` at two decimals — increasing the magnitude for digits 1–9 rather than
truncating toward zero. -/
theorem C3_round2_digit_rule (x : ℚ) :
    (0 ≤ x → ⌊x * 1000⌋ % 10 ≤ 5 → round2 x = (⌊x * 100⌋ : ℚ) / 100) ∧
    (0 ≤ x → 6 ≤ ⌊x * 1000⌋ % 10 → round2 x = (⌊x * 100⌋ : ℚ) / 100 + 1 / 100) ∧
    (x < 0 → round2 x = (⌊x * 100⌋ : ℚ) / 100) := by
  have hm_le : (⌊x * 1000⌋ : ℚ) ≤ x * 1000 := Int.floor_le _
  have hn_le : (⌊x * 100⌋ : ℚ) ≤ x * 100 := Int.floor_le _
  have hn_lt : x * 100 < ⌊x * 100⌋ + 1 := Int.lt_floor_add_one _
  refine ⟨?_, ?_, ?_⟩
  · intro hx hd
    have hm0 : 0 ≤ ⌊x * 1000⌋ := Int.floor_nonneg.mpr (by positivity)
    have hrem : decRem ⌊x * 1000⌋ 10 = ⌊x * 1000⌋ % 10 := by simp [decRem, hm0]
    unfold round2
    simp only [hrem]
    split
    · rfl
    · rw [if_neg (by omega)]
  · intro hx hd
    have hm0 : 0 ≤ ⌊x * 1000⌋ := Int.floor_nonneg.mpr (by positivity)
    have hrem : decRem ⌊x * 1000⌋ 10 = ⌊x * 1000⌋ % 10 := by simp [decRem, hm0]
    have h10n : 10 * ⌊x * 100⌋ ≤ ⌊x * 1000⌋ := by
      apply Int.le_floor.mpr
      push_cast
      nlinarith
    have h10n' : ⌊x * 1000⌋ ≤ 10 * ⌊x * 100⌋ + 9 := by
      have hq : (⌊x * 1000⌋ : ℚ) < 10 * ⌊x * 100⌋ + 10 := by nlinarith
      have hz : ⌊x * 1000⌋ < 10 * ⌊x * 100⌋ + 10 := by exact_mod_cast hq
      omega
    have hm6 : 10 * ⌊x * 100⌋ + 6 ≤ ⌊x * 1000⌋ := by omega
    have hkey : ⌊x * 100 + 1/2⌋ = ⌊x * 100⌋ + 1 := by
      have hq6 : (10 * ⌊x * 100⌋ + 6 : ℚ) ≤ x * 1000 := by
        calc (10 * ⌊x * 100⌋ + 6 : ℚ) ≤ (⌊x * 1000⌋ : ℚ) := by exact_mod_cast hm6
        _ ≤ x * 1000 := hm_le
      have h1 : (⌊x * 100⌋ + 1 : ℤ) ≤ ⌊x * 100 + 1/2⌋ :=
        Int.le_floor.mpr (by push_cast; nlinarith)
      have h2 : ⌊x * 100 + 1/2⌋ < ⌊x * 100⌋ + 2 := Int.floor_lt.mpr (by push_cast; nlinarith)
      omega
    unfold round2
    simp only [hrem]
    rw [if_neg (by omega), if_pos hd]
    unfold quantHalfUp2
    rw [if_pos hx, hkey]
    push_cast
    ring
  · intro hx
    have hm0 : ⌊x * 1000⌋ < 0 := by
      by_contra h
      push_neg at h
      have h0 : (0 : ℚ) ≤ (⌊x * 1000⌋ : ℚ) := by exact_mod_cast h
      nlinarith
    have hrem : decRem ⌊x * 1000⌋ 10 = -((-⌊x * 1000⌋) % 10) := by
      unfold decRem
      rw [if_neg (by omega)]
    have hnn : 0 ≤ (-⌊x * 1000⌋) % 10 := Int.emod_nonneg _ (by norm_num)
    unfold round2
    simp only [hrem]
    split
    · rfl
    · rw [if_neg (by omega)]

/-- C3, witness: the digit-6 rule at `1.236` and the negative-floor rule at
`-1.235`, both by applying `C3_round2_digit_rule`. -/
theorem C3_round2_digit_rule_witness :
    round2 (1236/1000) = (⌊(1236/1000 : ℚ) * 100⌋ : ℚ) / 100 + 1 / 100 ∧
    round2 (-1235/1000) = (⌊(-1235/1000 : ℚ) * 100⌋ : ℚ) / 100 :=
  ⟨(C3_round2_digit_rule (1236/1000)).2.1 (by norm_num) (by norm_num),
   (C3_round2_digit_rule (-1235/1000)).2.2 (by norm_num)⟩

/-! ## Claim C4 — `round_weight`'s leading-fractional-digit rule -/

/-- C4: the code contradicts its own docstring ("If 1-5: round DOWN to
current integer", "If .0 or no decimal: return as-is").  Because
`to_integral_value()` rounds half-even to the *nearest* integer,
`round_weight(12.55) = 13` (the claim and docstring say 12) and
`round_weight(12.04) = 12.0` (the claim says 12.04 unchanged). -/
theorem C4_round_weight_eval :
    round_weight (1255/100) = 13 ∧ round_weight (1204/100) = 12 ∧
    ((13 : ℚ) ≠ 12) ∧ ((12 : ℚ) ≠ 1204/100) := by
  refine ⟨?_, ?_, by norm_num, by norm_num⟩
  · norm_num [round_weight, toIntegralHalfEven]
  · norm_num [round_weight, toIntegralHalfEven]

/-! ## Claim C9 — numeric coercion -/

/-- C9, counterexample: the claim's example says `"1,000 KHR"` coerces to
`1000`, but the code replaces every comma by a dot before stripping, so the
value is `1.0`. -/
theorem C9_counterexample :
    num_or_none (some "1,000 KHR") = some 1 ∧ (1 : ℚ) ≠ 1000 := by
  constructor
  · simp +decide [num_or_none, cleanNumeric, pyFloat, digitsVal, stripL, keptChar]
  · norm_num

/-- C9, amended: coercion keeps digits, dots and minus signs and discards
appended non-numeric text; commas become decimal dots (so `"1,000 KHR"` is
`1.0`, not `1000`); degenerate results give `none` instead of raising. -/
theorem C9_num_or_none_rule :
    (∀ s t : String, (∀ c ∈ t.data, keptChar c = false ∧ c ≠ ',') →
        num_or_none (some (s ++ t)) = num_or_none (some s)) ∧
    num_or_none (some "15.90$") = some (159/10) ∧
    num_or_none (some " 0.5 ") = some (1/2) ∧
    num_or_none (some "1,000 KHR") = some 1 ∧
    num_or_none (some "1.2.3") = none ∧
    num_or_none (some "-") = none ∧
    num_or_none (some ".") = none ∧
    num_or_none (some "") = none ∧
    num_or_none none = none := by
  refine ⟨num_or_none_append_junk, ?_, ?_, ?_, by decide, by decide, by decide,
    by decide, by decide⟩
  · simp +decide [num_or_none, cleanNumeric, pyFloat, digitsVal, stripL, keptChar]
    norm_num
  · simp +decide [num_or_none, cleanNumeric, pyFloat, digitsVal, stripL, keptChar]
    norm_num
  · simp +decide [num_or_none, cleanNumeric, pyFloat, digitsVal, stripL, keptChar]

/-- C9, witness: the junk-suffix clause applied at `"22.50" ++ "$"`. -/
theorem C9_num_or_none_rule_witness :
    num_or_none (some ("22.50" ++ "$")) = num_or_none (some "22.50") :=
  C9_num_or_none_rule.1 "22.50" "$" (by decide)

/-! ## Claim C7 — the classifier -/

/-- C7: `choose_sheet_name` is total over the fixed sheet vocabulary, is
invariant under anything that lowercases/trims to the same strings (inputs
are normalized before matching, and equal inputs trivially give equal
outputs), resolves category "detergent" with an empty or missing
sub-category to "Powder Detergent" (the empty sub-category is a member of
the powder rule's set), resolves sub-category "liquid" to
"Liquid Detergent", and maps anything matching no rule to "Data". -/
theorem C7_classify_total_pure_rules :
    (∀ c s : Option String, choose_sheet_name c s ∈ SHEET_NAMES) ∧
    (∀ c s c' s' : Option String, normField c = normField c' → normField s = normField s' →
        choose_sheet_name c s = choose_sheet_name c' s') ∧
    choose_sheet_name (some "detergent") (some "") = "Powder Detergent" ∧
    choose_sheet_name (some "detergent") none = "Powder Detergent" ∧
    choose_sheet_name (some " Detergent ") (some " LIQUID ") = "Liquid Detergent" ∧
    choose_sheet_name (some "instant noodles") (some "cup") = "Data" ∧
    (∀ c s : Option String,
      ¬ normField c ∈ ["cooking oil", "oil", "palm oil", "vegetable oil", "coconut oil",
          "sunflower oil"] →
      ¬ (normField c ∈ ["detergent", "powder detergent", "washing powder"] ∧
          normField s ∈ ["powder", "powdered", "Powder", ""]) →
      ¬ (normField c ∈ ["detergent", "liquid detergent", "laundry liquid"] ∧
          normField s ∈ ["liquid", "Liquid", ""]) →
      ¬ normField c ∈ ["milk", "dairy milk", "fresh milk", "evaporated milk",
          "condensed milk", "Milk"] →
      ¬ normField c ∈ ["dishwash", "dish wash", "dishwashing liquid", "Dishwash",
          "dishwashing"] →
      ¬ normField c ∈ ["fabric softener", "Fabric softener", "softener",
          "Fabric Softener", "fabric softner"] →
      ¬ normField c ∈ ["eco dishwash", "eco dishwashing", "eco-dishwash",
          "Eco dishwash", "Eco Dishwash"] →
      ¬ normField c ∈ ["toilet", "toilet cleaner", "toilet bowl cleaner",
          "wc cleaner", "toilet liquid", "Toilet"] →
      choose_sheet_name c s = "Data") := by
  refine ⟨?_, ?_, by decide, by decide, by decide, by decide, ?_⟩
  · intro c s
    simp only [choose_sheet_name]
    split_ifs <;> decide
  · intro c s c' s' hc hs
    simp only [choose_sheet_name]
    rw [hc, hs]
  · intro c s h1 h2 h3 h4 h5 h6 h7 h8
    simp only [choose_sheet_name]
    rw [if_neg h1, if_neg h2, if_neg h3, if_neg h4, if_neg h5, if_neg h6, if_neg h7, if_neg h8]

/-- C7, witness: the fallback clause applied at an unmatched category. -/
theorem C7_classify_witness :
    choose_sheet_name (some "instant noodles") none = "Data" :=
  C7_classify_total_pure_rules.2.2.2.2.2.2 (some "instant noodles") none
    (by decide) (by decide) (by decide) (by decide) (by decide) (by decide)
    (by decide) (by decide)


/-! ## Claim C10 — the exchange rate is always the configured default -/

/-- C10: `parse_message` stores `None` for the exchange rate no matter what
the text contains (there is no extraction for an "Exchange Rate:" label),
and `calculate_fields` always sets the configured default. -/
theorem C10_exchange_rate_default :
    (∀ text : String, (parse_message text).exchange_rate = none) ∧
    (∀ (p : Parsed) (c : Calc), calculate_fields p = .ok c →
        c.exchange_rate = EXCHANGE_RATE_DEFAULT) := by
  constructor
  · intro text
    rfl
  · intro p c h
    simp only [calculate_fields] at h
    split at h
    · cases h
    · split at h
      · cases h
      · cases h
        rfl

theorem C10_exchange_rate_default_witness :
    (parse_message "Exchange Rate: 9999\x0aDate: 1.1.2025").exchange_rate = none ∧
    c10_output.exchange_rate = EXCHANGE_RATE_DEFAULT :=
  ⟨C10_exchange_rate_default.1 _,
   C10_exchange_rate_default.2 c10_input c10_output (by
     norm_num [calculate_fields, c10_input, c10_output, round2, decRem, pyRoundInt,
       toIntegralHalfEven, EXCHANGE_RATE_DEFAULT])⟩


/-! ## Claim C2 — formula cells versus the Calculation Engine

`C2_counterexample` exhibits one row (Size 1040, Packs 1, Buy-in 10.1,
Scheme(base) 13, FOC 7, no direct discount, no mark-up, rate 4100,
Price Unit 9000) where three formula cells differ from the §4.4 engine with
`round2`/`round_weight` semantics: `Discount($)` is 3.54 against `round2`'s
3.53 (`ROUND` is half away from zero, `round2` truncates on a third digit of
5), `Weight per Ctn` is 1 against `round_weight`'s digit-0 rule keeping
1.04, and `Margin/Unit` is an integer-rounded value of a chain built from
the diverging discount.  `C2_formula_cells_match_excel_engine` is the
amended statement: every formula cell equals the §4.4 chain computed with
the spreadsheet's half-away-from-zero `ROUND` (2 decimals on USD amounts, 0
on KHR amounts) and the weight formula's MOD-digit rule, the `(%)` cells
holding the fraction `pct/100` that the percent display format scales. -/

/-- The discount cell's argument `N*K` equals the spec chain's
`buy_in * discount_pct / 100`. -/
lemma discount_cell_arg (K L M : ℚ) :
    (if L + M = 0 then (0:ℚ) else M / (L + M)) * K
      = K * (if L + M = 0 then (0:ℚ) else 100 * M / (L + M)) / 100 := by
  split <;> ring

lemma discount_pct_cell (L M : ℚ) :
    (if L + M = 0 then (0:ℚ) else M / (L + M))
      = (if L + M = 0 then (0:ℚ) else 100 * M / (L + M)) / 100 := by
  split
  · norm_num
  · ring

/-- C2, counterexample: at the row Size 1040, Packs 1, Buy-in 10.1,
Scheme(base) 13, FOC 7, no direct discount or mark-up, rate 4100, Price Unit
9000, three formula cells differ from the §4.4 engine with
`round2`/`round_weight` semantics: `Discount($)` (3.54 vs 3.53),
`Weight per Ctn` (1 vs 1.04) and `Margin/Unit` (−17896 vs −17937). -/
theorem C2_counterexample :
    (rowCells 1040 1 (101/10) 13 7 0 0 4100 9000).discountUsd = 177/50 ∧
    (specRow (101/10) 13 7 0 0 4100 9000 1040 1).discount_value = 353/100 ∧
    ((177/50 : ℚ) ≠ 353/100) ∧
    (rowCells 1040 1 (101/10) 13 7 0 0 4100 9000).weightCtn = 1 ∧
    (specRow (101/10) 13 7 0 0 4100 9000 1040 1).weight = 26/25 ∧
    ((1 : ℚ) ≠ 26/25) ∧
    (rowCells 1040 1 (101/10) 13 7 0 0 4100 9000).marginUnitKhr = -17896 ∧
    (specRow (101/10) 13 7 0 0 4100 9000 1040 1).margin_unit = -17937 ∧
    ((-17896 : ℚ) ≠ -17937) := by
  refine ⟨?_, ?_, by norm_num, ?_, ?_, by norm_num, ?_, ?_, by norm_num⟩ <;>
    norm_num [rowCells, specRow, excelRound2, excelRound0, excelMod, excelRoundUp0,
      excelRoundDown0, round2, decRem, quantHalfUp2, spec_round_weight]

/-- C2, amended: every formula cell of a report row evaluates to the
corresponding §4.4 quantity computed with the spreadsheet's
half-away-from-zero `ROUND` (2 decimals on USD, 0 on KHR amounts) and the
weight formula's MOD-digit rule, the `(%)` cells holding the fraction
`pct/100` that the percent display format scales.  `dp` is the
direct-discount percentage on the spec's 0–100 scale; the `P` cell holds
`dp/100`. -/
theorem C2_formula_cells_match_excel_engine (H I K L M dp T V X : ℚ) :
    (rowCells H I K L M (dp / 100) T V X).discountPct
        = (specRowExcel K L M dp T V X H I).discount_pct ∧
    (rowCells H I K L M (dp / 100) T V X).discountUsd
        = (specRowExcel K L M dp T V X H I).discount_value ∧
    (rowCells H I K L M (dp / 100) T V X).directDiscUsd
        = (specRowExcel K L M dp T V X H I).direct_disc_value ∧
    (rowCells H I K L M (dp / 100) T V X).netBuyIn
        = (specRowExcel K L M dp T V X H I).net_buy_in ∧
    (rowCells H I K L M (dp / 100) T V X).price100
        = (specRowExcel K L M dp T V X H I).price_per_100 ∧
    (rowCells H I K L M (dp / 100) T V X).weightCtn
        = (specRowExcel K L M dp T V X H I).weight ∧
    (rowCells H I K L M (dp / 100) T V X).sellOutUsd
        = (specRowExcel K L M dp T V X H I).sell_out_usd ∧
    (rowCells H I K L M (dp / 100) T V X).sellOutKhr
        = (specRowExcel K L M dp T V X H I).sell_out_local ∧
    (rowCells H I K L M (dp / 100) T V X).marginUnitKhr
        = (specRowExcel K L M dp T V X H I).margin_unit ∧
    (rowCells H I K L M (dp / 100) T V X).priceCtnKhr
        = (specRowExcel K L M dp T V X H I).price_ctn ∧
    (rowCells H I K L M (dp / 100) T V X).marginCtnKhr
        = (specRowExcel K L M dp T V X H I).margin_ctn := by
  have hdd : dp / 100 * K = K * dp / 100 := by ring
  simp only [rowCells, specRowExcel]
  rw [discount_cell_arg, hdd, discount_pct_cell]
  repeat' first
    | exact trivial
    | constructor

/-! ## Claim C8 — explicit Sell Out ($) values are never used -/

/-- C8, counterexample: a product that supplies an explicit
Sell Out ($) of 99 still gets the formula value 23 (net buy-in 22.5 plus
mark-up 0.5) in its emitted row. -/
theorem C8_counterexample :
    c8_input.sell_out_usd = some 99 ∧
    sellOutCellOf c8_input = .ok 23 ∧
    ((23 : ℚ) ≠ 99) := by
  refine ⟨by decide, ?_, by norm_num⟩
  have hc : calculate_fields c8_input = .ok c8_output := by
    norm_num [calculate_fields, c8_input, c8_output, round2, decRem, quantHalfUp2,
      pyRoundInt, toIntegralHalfEven]
  rw [sellOutCellOf, hc]
  norm_num [c8_output, c8_input, rowCellsOf, rowCells, Except.map, excelRound2]

/-- C8, amended: the emitted Sell Out ($) cell never depends on the parsed
explicit value, and always equals `ROUND(net_buy_in + mark_up, 2)`. -/
theorem C8_sell_out_always_formula (p : Parsed) (v : Option ℚ) :
    sellOutCellOf { p with sell_out_usd := v } = sellOutCellOf p ∧
    (∀ c : Calc, calculate_fields p = .ok c →
      sellOutCellOf p = .ok (excelRound2 ((rowCellsOf c).netBuyIn + c.mark_up))) := by
  constructor
  · cases hb : p.buy_in <;> cases hp : p.price_unit_khr <;>
      simp [sellOutCellOf, calculate_fields, hb, hp, rowCellsOf, rowCells, Except.map]
  · intro c h
    rw [sellOutCellOf, h]
    rfl

theorem C8_sell_out_always_formula_witness :
    sellOutCellOf c8_input
      = .ok (excelRound2 ((rowCellsOf c8_output).netBuyIn + c8_output.mark_up)) :=
  (C8_sell_out_always_formula c8_input none).2 c8_output (by
    norm_num [calculate_fields, c8_input, c8_output, round2, decRem, quantHalfUp2,
      pyRoundInt, toIntegralHalfEven])

/-! ## Claim C1 — a missing required field is detected only after the
registry has been mutated

`handle_text` appends every parsed block to `ALL_PRODUCTS` *before*
`_rebuild_sheet_rows` runs `calculate_fields`; when a block lacks
"Price Unit", the `ValueError` is raised after the append, so the registry
keeps the failing record (and every later batch keeps failing on it). -/

/-- C1: handling a batch whose only block lacks "Price Unit" raises the
missing-required-field error, yet the registry has already been mutated —
it holds the failing parsed record, contradicting the claim that the error
is detected before any mutation. -/
theorem C1_registry_mutated_before_error :
    handle_text [] c1_text = ([parse_message c1_text], .error .valueErrorPriceUnit) ∧
    ([parse_message c1_text] : List Parsed) ≠ [] := by
  have hmk : String.mk c1_text.data = c1_text := rfl
  have hblocks : (splitOnL ['-', '-', '-'] c1_text.data).filter
      (fun b => containsSub "Date:".data b) = [c1_text.data] := by decide
  have hpu : (parse_message c1_text).price_unit_khr = none := by decide
  have hex : extract_value c1_text (patK "Buy-in") = some "22.50$" := by decide
  have hbi : (parse_message c1_text).buy_in = some (45/2) := by
    show num_or_none (extract_value c1_text (patK "Buy-in")) = some (45/2)
    rw [hex]
    simp +decide [num_or_none, cleanNumeric, pyFloat, digitsVal, stripL, keptChar]
    norm_num
  have hcalc : calculate_fields (parse_message c1_text) = .error .valueErrorPriceUnit := by
    simp only [calculate_fields, hbi, hpu]
  refine ⟨?_, by simp⟩
  simp only [handle_text, hblocks, hmk, List.isEmpty_cons, List.map, List.nil_append,
    rebuild_sheet_rows, mapME, hcalc, Except.map]
  rfl

/-! ## Claim C5 — the per-sheet ordinal sort raises on mixed dates

The sort key is `calc.get("date") or ""`, so a sheet mixing undated and
dated products compares a `str` with a `datetime.date` and raises
`TypeError` instead of sorting nulls last. -/

/-- C5: building the per-sheet ordinal index over a registry whose "Data"
sheet holds one undated and one dated product raises `TypeError` (the sort
key `date or ""` compares a string with a date), contradicting the claim
that index building sorts null dates last and never raises. -/
theorem C5_mixed_dates_raise_type_error :
    c5_undated.date = none ∧ c5_dated.date = some 20250101 ∧
    build_index [c5_undated, c5_dated] = .error .typeError := by
  have hA : calculate_fields c5_undated = .ok c5_calc_undated := by
    norm_num [calculate_fields, c5_undated, c5_calc_undated, round2, decRem,
      pyRoundInt, toIntegralHalfEven, EXCHANGE_RATE_DEFAULT]
  have hB : calculate_fields c5_dated = .ok c5_calc_dated := by
    norm_num [calculate_fields, c5_dated, c5_calc_dated, round2, decRem,
      pyRoundInt, toIntegralHalfEven, EXCHANGE_RATE_DEFAULT]
  have hm : mapME calculate_fields [c5_undated, c5_dated]
      = .ok [c5_calc_undated, c5_calc_dated] := by
    simp only [mapME, hA, hB]
  refine ⟨by decide, by decide, ?_⟩
  simp only [build_index, hm]
  decide

/-! ## Lemma stack for the Registry & Index Builder (claim C6)

Facts about the modelled Python loops (`mapME`), the grouping (`bucket`,
`sheetKeys`, `lookupA`), the per-sheet insertion sort (`insertE`/`sortE`) and
the counting of sheet members used to settle the delete-by-ordinal claim. -/

lemma mapME_ok_length {α β : Type} {f : α → Except PyErr β} :
    ∀ {xs : List α} {ys : List β}, mapME f xs = .ok ys → ys.length = xs.length := by
  intro xs
  induction xs with
  | nil => intro ys h; cases h; rfl
  | cons x xs ih =>
    intro ys h
    simp only [mapME] at h
    split at h
    · cases h
    · split at h
      · cases h
      · cases h
        simp [ih (by assumption)]

lemma mapME_ok_eraseIdx {α β : Type} {f : α → Except PyErr β} :
    ∀ {xs : List α} {ys : List β} (i : ℕ), mapME f xs = .ok ys →
      mapME f (xs.eraseIdx i) = .ok (ys.eraseIdx i) := by
  intro xs
  induction xs with
  | nil => intro ys i h; cases h; simp [mapME]
  | cons x xs ih =>
    intro ys i h
    simp only [mapME] at h
    split at h
    · cases h
    · split at h
      · cases h
      · cases h
        cases i with
        | zero => simpa [List.eraseIdx] using (by assumption)
        | succ n =>
          simp only [List.eraseIdx, mapME]
          rw [(by assumption : f x = .ok _), ih n (by assumption)]

lemma mapME_ok_of_forall {α β : Type} {f : α → Except PyErr β} :
    ∀ {xs : List α}, (∀ x ∈ xs, ∃ y, f x = .ok y) → ∃ ys, mapME f xs = .ok ys := by
  intro xs
  induction xs with
  | nil => intro _; exact ⟨[], rfl⟩
  | cons x xs ih =>
    intro h
    obtain ⟨y, hy⟩ := h x (by simp)
    obtain ⟨ys, hys⟩ := ih (fun z hz => h z (by simp [hz]))
    exact ⟨y :: ys, by simp only [mapME, hy, hys]⟩

lemma skeyLt_ok_of_sameType {a b : SKey} (h : skeyIsStr a = skeyIsStr b) :
    ∃ r, skeyLt a b = .ok r := by
  cases a <;> cases b <;> simp_all [skeyIsStr, skeyLt]

lemma insertE_ok {x : ℕ × Calc} :
    ∀ {l : List (ℕ × Calc)},
      (∀ y ∈ l, skeyIsStr (skeyOf y) = skeyIsStr (skeyOf x)) →
      ∃ l', insertE x l = .ok l' ∧ List.Perm l' (x :: l) := by
  intro l
  induction l with
  | nil => intro _; exact ⟨[x], rfl, List.Perm.refl _⟩
  | cons y ys ih =>
    intro h
    obtain ⟨r, hr⟩ := skeyLt_ok_of_sameType (h y (by simp))
    cases r with
    | true =>
      obtain ⟨l'', h1, h2⟩ := ih (fun z hz => h z (by simp [hz]))
      refine ⟨y :: l'', ?_, ?_⟩
      · simp only [insertE, hr, h1]
      · exact (h2.cons y).trans (List.Perm.swap x y ys)
    | false =>
      exact ⟨x :: y :: ys, by simp only [insertE, hr], List.Perm.refl _⟩

lemma sortE_ok : ∀ {l : List (ℕ × Calc)}, KeysUniform l →
    ∃ l', sortE l = .ok l' ∧ List.Perm l' l := by
  intro l
  induction l with
  | nil => intro _; exact ⟨[], rfl, List.Perm.refl _⟩
  | cons x xs ih =>
    intro h
    obtain ⟨s, hs, hp⟩ := ih (fun a ha b hb => h a (by simp [ha]) b (by simp [hb]))
    obtain ⟨l', h1, h2⟩ := insertE_ok (x := x) (l := s)
      (fun y hy => h y (by simp [hp.mem_iff.mp hy]) x (by simp))
    refine ⟨l', by simp only [sortE, hs, h1], ?_⟩
    exact h2.trans (hp.cons x)


lemma sheetKeys_fold_mem (x : String) :
    ∀ (items : List (ℕ × Calc)) (acc : List String),
      (x ∈ items.foldl
          (fun ks it => if itemKey it ∈ ks then ks else ks ++ [itemKey it]) acc
        ↔ x ∈ acc ∨ ∃ it ∈ items, itemKey it = x) := by
  intro items
  induction items with
  | nil => intro acc; simp
  | cons it items ih =>
    intro acc
    simp only [List.foldl_cons]
    rw [ih]
    constructor
    · rintro (h | h)
      · split at h
        · exact Or.elim (Or.inl h) Or.inl Or.inl
        · rcases List.mem_append.mp h with h | h
          · exact Or.inl h
          · exact Or.inr ⟨it, by simp, (List.mem_singleton.mp h).symm⟩
      · exact Or.inr ⟨h.choose, by simp [h.choose_spec.1], h.choose_spec.2⟩
    · rintro (h | ⟨jt, hjt, hkey⟩)
      · left
        split
        · exact h
        · exact List.mem_append.mpr (Or.inl h)
      · rcases List.mem_cons.mp hjt with rfl | hjt'
        · left
          split
          · exact hkey ▸ (by assumption)
          · exact List.mem_append.mpr (Or.inr (by simp [hkey]))
        · exact Or.inr ⟨jt, hjt', hkey⟩

lemma mem_sheetKeys {cs : List Calc} {x : String} :
    x ∈ sheetKeys cs ↔ ∃ it ∈ itemsOf cs, itemKey it = x := by
  rw [sheetKeys, sheetKeys_fold_mem]
  simp

lemma bucket_ne_nil_iff {cs : List Calc} {key : String} :
    bucket cs key ≠ [] ↔ ∃ it ∈ itemsOf cs, itemKey it = key := by
  rw [bucket, Ne, List.filter_eq_nil_iff]
  push_neg
  simp only [decide_eq_true_eq]

lemma lookupA_mapME_keys {F : String → Except PyErr (List (ℕ × Calc))}
    {gs : List (String × List (ℕ × Calc))} :
    ∀ {ks : List String},
      mapME (fun k => (F k).map (fun l => (k, l))) ks = .ok gs →
      ∀ key, (key ∈ ks → ∃ l, F key = .ok l ∧ lookupA gs key = some l) ∧
        (key ∉ ks → lookupA gs key = none) := by
  intro ks
  induction ks generalizing gs with
  | nil =>
    intro h key
    cases h
    exact ⟨fun hk => absurd hk (List.not_mem_nil key), fun _ => rfl⟩
  | cons k ks ih =>
    intro h key
    rw [mapME] at h
    cases hFk : F k with
    | error e =>
      rw [hFk] at h
      cases h
    | ok l =>
      rw [hFk] at h
      rw [show Except.map (fun l => (k, l)) (Except.ok l)
          = Except.ok (ε := PyErr) (k, l) from rfl] at h
      cases hrec : mapME (fun k => (F k).map (fun l => (k, l))) ks with
      | error e => rw [hrec] at h; cases h
      | ok ys =>
        rw [hrec] at h
        cases h
        constructor
        · intro hk
          by_cases hkey : k = key
          · subst hkey
            exact ⟨l, hFk, by simp [lookupA]⟩
          · obtain ⟨l', h1, h2⟩ := (ih hrec key).1
              (by rcases List.mem_cons.mp hk with rfl | h'
                  · exact absurd rfl hkey
                  · exact h')
            exact ⟨l', h1, by simp [lookupA, hkey, h2]⟩
        · intro hk
          have hkey : ¬ k = key := fun he => hk (he ▸ List.mem_cons_self _ _)
          simp [lookupA, hkey,
            (ih hrec key).2 (fun h' => hk (List.mem_cons.mpr (Or.inr h')))]


lemma zip_filter_snd_length (q : ℕ × Calc → Bool) (p : Calc → Bool)
    (hq : ∀ i c, q (i, c) = p c) :
    ∀ (cs : List Calc) (is : List ℕ), is.length = cs.length →
      ((is.zip cs).filter q).length = cs.countP p := by
  intro cs
  induction cs with
  | nil => intro is h; simp
  | cons c cs ih =>
    intro is h
    cases is with
    | nil => simp at h
    | cons i is' =>
      simp only [List.zip_cons_cons, List.filter_cons, List.countP_cons, hq]
      by_cases hp : p c <;>
        simp [hp, ih is' (by simpa using h)]

lemma zip_map_fst_comp {α β : Type} (F : ℕ → β) :
    ∀ (l : List α) (is : List ℕ), is.length = l.length →
      ((is.zip l).map (fun p => F p.1)) = is.map F := by
  intro l
  induction l with
  | nil => intro is h; rw [List.length_nil, List.length_eq_zero] at h; subst h; rfl
  | cons x l ih =>
    intro is h
    cases is with
    | nil => simp at h
    | cons i is' => simp [ih is' (by simpa using h)]

lemma countP_eraseIdx (p : Calc → Bool) :
    ∀ (cs : List Calc) (g : ℕ) (c : Calc), cs.get? g = some c → p c = true →
      (cs.eraseIdx g).countP p = cs.countP p - 1 := by
  intro cs
  induction cs with
  | nil => intro g c hg; cases g <;> cases hg
  | cons x cs ih =>
    intro g c hg hp
    cases g with
    | zero =>
      cases hg
      simp [List.eraseIdx, List.countP_cons, hp]
    | succ n =>
      have hg2 : cs.get? n = some c := by simpa using hg
      have hmem : c ∈ cs := List.get?_mem hg2
      have hpos : 0 < cs.countP p := List.countP_pos_iff.mpr ⟨c, hmem, hp⟩
      have hrec := ih n c hg2 hp
      simp only [List.eraseIdx, List.countP_cons, hrec]
      omega


lemma mem_itemsOf {cs : List Calc} {i : ℕ} {c : Calc} (h : (i, c) ∈ itemsOf cs) :
    i < cs.length ∧ cs.get? i = some c := by
  rw [itemsOf] at h
  obtain ⟨k, hk, hget⟩ := List.mem_iff_getElem.mp h
  have hlen : ((List.range cs.length).zip cs).length = cs.length := by simp
  rw [List.getElem_zip] at hget
  have hki : k = i := by
    have := congrArg Prod.fst hget
    simpa using this
  subst hki
  have hc : cs[k] = c := by
    have := congrArg Prod.snd hget
    simpa using this
  rw [hlen] at hk
  exact ⟨hk, by rw [List.get?_eq_getElem?, List.getElem?_eq_getElem hk, hc]⟩


lemma skeyIsStr_eq_isNone (i : ℕ) (c : Calc) :
    skeyIsStr (skeyOf (i, c)) = c.toParsed.date.isNone := by
  rw [skeyOf]
  cases c.toParsed.date <;> rfl

lemma bucket_mem_snd {cs : List Calc} {key : String} {it : ℕ × Calc}
    (h : it ∈ bucket cs key) :
    it.2 ∈ cs ∧ itemKey it = key := by
  rw [bucket, List.mem_filter, decide_eq_true_eq] at h
  refine ⟨?_, h.2⟩
  obtain ⟨i, c⟩ := it
  exact List.get?_mem (mem_itemsOf h.1).2

lemma bucket_keysUniform {cs : List Calc} (h : DateUniform cs) (key : String) :
    KeysUniform (bucket cs key) := by
  intro a ha b hb
  obtain ⟨ha1, ha2⟩ := bucket_mem_snd ha
  obtain ⟨hb1, hb2⟩ := bucket_mem_snd hb
  obtain ⟨i, c⟩ := a
  obtain ⟨j, d⟩ := b
  rw [skeyIsStr_eq_isNone, skeyIsStr_eq_isNone]
  exact h c ha1 d hb1 (by rw [itemKey] at ha2 hb2; rw [ha2, hb2])

lemma dateUniform_eraseIdx {cs : List Calc} (h : DateUniform cs) (g : ℕ) :
    DateUniform (cs.eraseIdx g) := by
  intro c1 h1 c2 h2 hk
  exact h c1 ((cs.eraseIdx_sublist g).mem h1) c2 ((cs.eraseIdx_sublist g).mem h2) hk

lemma sortedSheets_ok {cs : List Calc} (h : DateUniform cs) :
    ∃ gs, sortedSheets cs = .ok gs := by
  apply mapME_ok_of_forall
  intro k _
  obtain ⟨l', h1, _⟩ := sortE_ok (bucket_keysUniform h k)
  exact ⟨(k, l'), by rw [h1]; rfl⟩

lemma rebuild_ok {xs : List Parsed} :
    ∀ {ys : List Calc}, mapME calculate_fields xs = .ok ys →
      rebuild_sheet_rows xs = .ok (ys.map (fun c => (sheetOf c, c))) := by
  induction xs with
  | nil => intro ys h; cases h; rfl
  | cons x xs ih =>
    intro ys h
    rw [mapME] at h
    cases hx : calculate_fields x with
    | error e => rw [hx] at h; cases h
    | ok c =>
      rw [hx] at h
      cases hrec : mapME calculate_fields xs with
      | error e => rw [hrec] at h; cases h
      | ok cs' =>
        rw [hrec] at h
        cases h
        simp only [rebuild_sheet_rows, mapME, hx]
        rw [show Except.map (fun c => (sheetOf c, c)) (Except.ok c)
            = Except.ok (ε := PyErr) (sheetOf c, c) from rfl]
        have hx2 := ih hrec
        rw [rebuild_sheet_rows] at hx2
        rw [hx2]
        rfl

lemma ordinalize_fst (l : List (ℕ × Calc)) :
    (((List.range l.length).zip l).map (fun p => (p.1 + 1, p.2.1))).map Prod.fst
      = List.range' 1 l.length := by
  rw [List.map_map]
  have h1 : ((List.range l.length).zip l).map (fun p => p.1 + 1)
      = (List.range l.length).map (fun i => i + 1) :=
    zip_map_fst_comp (fun i => i + 1) l (List.range l.length) (by simp)
  have h2 : (Prod.fst ∘ fun p : ℕ × (ℕ × Calc) => (p.1 + 1, p.2.1))
      = (fun p : ℕ × (ℕ × Calc) => p.1 + 1) := rfl
  rw [h2, h1, List.range'_eq_map_range]
  exact List.map_congr_left (fun i _ => Nat.add_comm i 1)


lemma lookupA_map_val {G : List (ℕ × Calc) → List (ℕ × ℕ)} :
    ∀ (gs : List (String × List (ℕ × Calc))) (key : String),
      lookupA (gs.map (fun e => (e.1, G e.2))) key = (lookupA gs key).map G := by
  intro gs
  induction gs with
  | nil => intro key; rfl
  | cons e gs ih =>
    intro key
    simp only [List.map_cons, lookupA]
    split
    · rfl
    · exact ih key

/-- The normalized-sheet membership test on an item depends only on the
calculated product. -/
lemma bucket_length_countP (cs : List Calc) (key : String) :
    (bucket cs key).length
      = cs.countP (fun c => decide (normalize_sheet (sheetOf c) = key)) := by
  rw [bucket, itemsOf]
  exact zip_filter_snd_length _ _ (fun i c => rfl) cs (List.range cs.length) (by simp)

/-! ## Claim C6 — delete-by-ordinal -/

/-- C6, amended.  Provided the index can actually be built — every product
has its required fields (`mapME calculate_fields` succeeds) and no sheet
mixes dated and undated products (`DateUniform`, without which the date sort
raises `TypeError` before the sheet lookup, see the counterexample) — the
delete operation behaves as claimed: an unknown sheet name or an ordinal
outside `1..N` answers NotFound and leaves the registry unchanged, and a
valid ordinal `k` removes exactly one product of that sheet; rebuilding the
index afterwards yields every sheet with dense 1-based ordinals, the
addressed sheet with `N-1` members (present whenever `N ≥ 2`). -/
theorem C6_delete_by_ordinal (reg : List Parsed) (s : String) (k : ℤ) (cs : List Calc)
    (hcs : mapME calculate_fields reg = .ok cs)
    (hu : DateUniform cs) :
    (bucket cs (normalize_sheet s) = [] →
        delete_command reg s k = (reg, .ok .notFoundSheet)) ∧
    (bucket cs (normalize_sheet s) ≠ [] →
      ((k < 1 ∨ ((bucket cs (normalize_sheet s)).length : ℤ) < k) →
        delete_command reg s k = (reg, .ok .notFoundId)) ∧
      (1 ≤ k → k ≤ ((bucket cs (normalize_sheet s)).length : ℤ) →
        ∃ g, g < reg.length ∧
          delete_command reg s k = (reg.eraseIdx g, .ok (.deleted g)) ∧
          ∃ idx, build_index (reg.eraseIdx g) = .ok idx ∧
            (∀ sh rows, lookupA idx sh = some rows →
                rows.map Prod.fst = List.range' 1 rows.length) ∧
            (∀ rows, lookupA idx (normalize_sheet s) = some rows →
                rows.length = (bucket cs (normalize_sheet s)).length - 1) ∧
            (2 ≤ (bucket cs (normalize_sheet s)).length →
                ∃ rows, lookupA idx (normalize_sheet s) = some rows))) := by
  obtain ⟨gs, hgs⟩ := sortedSheets_ok hu
  have hlk := lookupA_mapME_keys (F := fun kk => sortE (bucket cs kk)) hgs
  constructor
  · intro hempty
    have hkey_not : normalize_sheet s ∉ sheetKeys cs := by
      rw [mem_sheetKeys]
      rintro ⟨it, h1, h2⟩
      exact bucket_ne_nil_iff.mpr ⟨it, h1, h2⟩ hempty
    have hnone := (hlk (normalize_sheet s)).2 hkey_not
    simp only [delete_command, hcs, hgs, hnone]
  · intro hne
    have hkey_mem : normalize_sheet s ∈ sheetKeys cs :=
      mem_sheetKeys.mpr (bucket_ne_nil_iff.mp hne)
    obtain ⟨rows, hrowsF, hrowsL⟩ := (hlk (normalize_sheet s)).1 hkey_mem
    obtain ⟨l1, hl1, hperm⟩ := sortE_ok (bucket_keysUniform hu (normalize_sheet s))
    have hrowsF2 : sortE (bucket cs (normalize_sheet s)) = Except.ok rows := hrowsF
    have hrl : rows = l1 := by
      rw [hrowsF2] at hl1
      exact Except.ok.inj hl1
    subst hrl
    have hlen : rows.length = (bucket cs (normalize_sheet s)).length := hperm.length_eq
    constructor
    · intro hk
      simp only [delete_command, hcs, hgs, hrowsL]
      rw [if_pos (by rw [hlen]; exact hk)]
    · intro hk1 hk2
      have hidx : (k - 1).toNat < rows.length := by
        rw [hlen]
        omega
      have hgetD : rows.getD (k - 1).toNat (0, default) = rows.get ⟨(k - 1).toNat, hidx⟩ := by
        rw [List.getD_eq_getElem?_getD, List.getElem?_eq_getElem hidx, Option.getD_some,
          List.get_eq_getElem]
      have hmem_rows : rows.get ⟨(k - 1).toNat, hidx⟩ ∈ rows := List.get_mem rows _ hidx
      have hmem_bucket : rows.get ⟨(k - 1).toNat, hidx⟩ ∈ bucket cs (normalize_sheet s) :=
        hperm.mem_iff.mp hmem_rows
      have hmem_filter := hmem_bucket
      rw [bucket, List.mem_filter, decide_eq_true_eq] at hmem_filter
      obtain ⟨hmem_items, hmem_key⟩ := hmem_filter
      obtain ⟨hg_lt_cs, hg_get⟩ :=
        mem_itemsOf (i := (rows.get ⟨(k - 1).toNat, hidx⟩).1)
          (c := (rows.get ⟨(k - 1).toNat, hidx⟩).2) (by rwa [Prod.mk.eta])
      have hreglen : cs.length = reg.length := mapME_ok_length hcs
      have hg_lt_reg : (rows.get ⟨(k - 1).toNat, hidx⟩).1 < reg.length := by omega
      have hreb := rebuild_ok (mapME_ok_eraseIdx (rows.get ⟨(k - 1).toNat, hidx⟩).1 hcs)
      have hp1 : (fun c => decide (normalize_sheet (sheetOf c) = normalize_sheet s))
          (rows.get ⟨(k - 1).toNat, hidx⟩).2 = true := by
        rw [decide_eq_true_eq]
        exact hmem_key
      have hcount : (bucket (cs.eraseIdx (rows.get ⟨(k - 1).toNat, hidx⟩).1)
            (normalize_sheet s)).length
          = (bucket cs (normalize_sheet s)).length - 1 := by
        rw [bucket_length_countP, bucket_length_countP]
        exact countP_eraseIdx _ cs _ _ hg_get hp1
      refine ⟨(rows.get ⟨(k - 1).toNat, hidx⟩).1, hg_lt_reg, ?_, ?_⟩
      · simp only [delete_command, hcs, hgs, hrowsL]
        rw [if_neg (by rw [hlen]; omega), hgetD, hreb]
      · have hcs2 : mapME calculate_fields
            (reg.eraseIdx (rows.get ⟨(k - 1).toNat, hidx⟩).1)
            = .ok (cs.eraseIdx (rows.get ⟨(k - 1).toNat, hidx⟩).1) :=
          mapME_ok_eraseIdx _ hcs
        have hu2 : DateUniform (cs.eraseIdx (rows.get ⟨(k - 1).toNat, hidx⟩).1) :=
          dateUniform_eraseIdx hu _
        obtain ⟨gs2, hgs2⟩ := sortedSheets_ok hu2
        have hlk2 := lookupA_mapME_keys
          (F := fun kk => sortE (bucket (cs.eraseIdx (rows.get ⟨(k - 1).toNat, hidx⟩).1) kk)) hgs2
        refine ⟨gs2.map (fun e =>
            (e.1, ((List.range e.2.length).zip e.2).map (fun p => (p.1 + 1, p.2.1)))), ?_, ?_, ?_, ?_⟩
        · simp only [build_index, hcs2, hgs2]
        · intro sh rows2 hlook
          rw [lookupA_map_val (G := fun l => ((List.range l.length).zip l).map (fun p => (p.1 + 1, p.2.1)))] at hlook
          cases hl0 : lookupA gs2 sh with
          | none => rw [hl0] at hlook; cases hlook
          | some l0 =>
            rw [hl0] at hlook
            cases hlook
            have hlen2 : (((List.range l0.length).zip l0).map
                (fun p => (p.1 + 1, p.2.1))).length = l0.length := by simp
            rw [hlen2, ordinalize_fst l0]
        · intro rows2 hlook
          rw [lookupA_map_val (G := fun l => ((List.range l.length).zip l).map (fun p => (p.1 + 1, p.2.1)))] at hlook
          cases hl0 : lookupA gs2 (normalize_sheet s) with
          | none => rw [hl0] at hlook; cases hlook
          | some l0 =>
            rw [hl0] at hlook
            cases hlook
            by_cases hmem2 : normalize_sheet s
                ∈ sheetKeys (cs.eraseIdx (rows.get ⟨(k - 1).toNat, hidx⟩).1)
            · obtain ⟨l2, hF2, hL2⟩ := (hlk2 _).1 hmem2
              rw [hl0] at hL2
              have hl02 : l0 = l2 := Option.some.inj hL2
              obtain ⟨l3, hl3, hperm3⟩ := sortE_ok (bucket_keysUniform hu2 (normalize_sheet s))
              have hF2b : sortE (bucket (cs.eraseIdx
                  (rows.get ⟨(k - 1).toNat, hidx⟩).1) (normalize_sheet s))
                  = Except.ok l2 := hF2
              have hl23 : l2 = l3 := by
                rw [hF2b] at hl3
                exact Except.ok.inj hl3
              have : l0.length = (bucket (cs.eraseIdx (rows.get ⟨(k - 1).toNat, hidx⟩).1)
                  (normalize_sheet s)).length := by
                rw [hl02, hl23]
                exact hperm3.length_eq
              simp only [List.length_map, List.length_zip, List.length_range, min_self]
              rw [this, hcount]
            · rw [(hlk2 _).2 hmem2] at hl0
              cases hl0
        · intro hN2
          have hbucket2_ne : bucket (cs.eraseIdx (rows.get ⟨(k - 1).toNat, hidx⟩).1)
              (normalize_sheet s) ≠ [] := by
            intro hnil
            rw [hnil] at hcount
            simp at hcount
            omega
          have hmem2 : normalize_sheet s
              ∈ sheetKeys (cs.eraseIdx (rows.get ⟨(k - 1).toNat, hidx⟩).1) :=
            mem_sheetKeys.mpr (bucket_ne_nil_iff.mp hbucket2_ne)
          obtain ⟨l2, hF2, hL2⟩ := (hlk2 _).1 hmem2
          exact ⟨_, by rw [lookupA_map_val (G := fun l => ((List.range l.length).zip l).map (fun p => (p.1 + 1, p.2.1))), hL2]; rfl⟩


/-- C6, counterexample: with a registry whose "Data" sheet mixes an undated
and a dated product, `/delete bogus 1` addresses an unknown sheet, yet the
command fails with the sort's `TypeError` (raised while sorting every sheet,
before the existence check) instead of answering NotFound. -/
theorem C6_counterexample :
    delete_command [c5_undated, c5_dated] "bogus" 1
      = ([c5_undated, c5_dated], .error .typeError) ∧
    ∀ o : DeleteOutcome,
      (Except.error PyErr.typeError : Except PyErr DeleteOutcome) ≠ .ok o := by
  constructor
  · have hA : calculate_fields c5_undated = .ok c5_calc_undated := by
      norm_num [calculate_fields, c5_undated, c5_calc_undated, round2, decRem,
        pyRoundInt, toIntegralHalfEven, EXCHANGE_RATE_DEFAULT]
    have hB : calculate_fields c5_dated = .ok c5_calc_dated := by
      norm_num [calculate_fields, c5_dated, c5_calc_dated, round2, decRem,
        pyRoundInt, toIntegralHalfEven, EXCHANGE_RATE_DEFAULT]
    have hm : mapME calculate_fields [c5_undated, c5_dated]
        = .ok [c5_calc_undated, c5_calc_dated] := by
      simp only [mapME, hA, hB]
    simp only [delete_command, hm]
    rfl
  · intro o
    simp

lemma c6_mapME_eval : mapME calculate_fields [c6_p1, c6_p2] = .ok [c6_c1, c6_c2] := by
  have h1 : calculate_fields c6_p1 = .ok c6_c1 := by
    norm_num [calculate_fields, c6_p1, c6_c1, round2, decRem,
      pyRoundInt, toIntegralHalfEven, EXCHANGE_RATE_DEFAULT]
  have h2 : calculate_fields c6_p2 = .ok c6_c2 := by
    norm_num [calculate_fields, c6_p2, c6_c2, round2, decRem,
      pyRoundInt, toIntegralHalfEven, EXCHANGE_RATE_DEFAULT]
  simp only [mapME, h1, h2]

/-- C6, witness: on a registry of two dated "Data" products, an unknown
sheet answers NotFound, an out-of-range ordinal answers NotFound, and
deleting ordinal 1 removes exactly one product. -/
theorem C6_delete_by_ordinal_witness :
    delete_command [c6_p1, c6_p2] "Oil" 5 = ([c6_p1, c6_p2], .ok .notFoundSheet) ∧
    delete_command [c6_p1, c6_p2] "Data" 9 = ([c6_p1, c6_p2], .ok .notFoundId) ∧
    ∃ g, g < 2 ∧ delete_command [c6_p1, c6_p2] "Data" 1
        = ([c6_p1, c6_p2].eraseIdx g, .ok (.deleted g)) := by
  refine ⟨?_, ?_, ?_⟩
  · exact (C6_delete_by_ordinal [c6_p1, c6_p2] "Oil" 5 [c6_c1, c6_c2]
      c6_mapME_eval (by unfold DateUniform; decide)).1 (by decide)
  · exact (((C6_delete_by_ordinal [c6_p1, c6_p2] "Data" 9 [c6_c1, c6_c2]
      c6_mapME_eval (by unfold DateUniform; decide)).2 (by decide)).1 (by decide))
  · obtain ⟨g, hg, hdel, _⟩ := (((C6_delete_by_ordinal [c6_p1, c6_p2] "Data" 1
      [c6_c1, c6_c2] c6_mapME_eval (by unfold DateUniform; decide)).2 (by decide)).2 (by decide) (by decide))
    exact ⟨g, hg, hdel⟩

end Spec2Proof
